import Mathlib

/-!
# Verification of `apps/dash-label-properties/app.py`

A shallow embedding of the Dash "label properties" application: the startup
property table computed from the label map, the overlay renderer
`image_with_contour`, and the four registered callbacks (`higlight_row`,
`highlight_filter`, `toggle_modal`, `toggle_navbar_collapse`).

Modelling conventions:
* the label map (`measure.label` output) is a grid of naturals, `0` meaning
  background (`Grid := List (List Nat)`);
* the grayscale / RGB image data is carried abstractly as a grid of rationals;
* a plotly figure is its list of traces, in the order the source adds them
  (`px.imshow` base trace, then `fig.add_image` overlay trace, then one
  `go.Scatter` per table row, and — in the selection branch of
  `highlight_filter` — one `fig.add_contour` outline trace at the end);
* Python exceptions (`IndexError` from `find_contours(...)[0]` and from
  `indices[cell_index["row"]]`, `KeyError` from `_table.loc`) are `Except.error`;
* library calls (`skimage.measure.regionprops_table`, `find_contours`) are
  modelled at the level of detail the source relies on; the geometric
  measures that no claim inspects (perimeter, eccentricity, Euler number)
  are parameters of the table builder, never stubbed to constants.
-/

namespace DashLabelProps

/-- The label map: a 2-D grid of non-negative integers, `0` background,
each positive value identifying one connected region
(`label_array = measure.label(img < filters.threshold_otsu(img))`). -/
abbrev Grid := List (List Nat)

/-- Image pixel data, carried abstractly (the grayscale values of `img`). -/
abbrev Image := List (List ℚ)

/-- One record of the property table: a row of
`pd.DataFrame(measure.regionprops_table(label_array, intensity_image=img,
properties=prop_names))`. -/
structure RegionRow where
  label : Nat
  area : Nat
  perimeter : ℚ
  eccentricity : ℚ
  euler_number : Int
  mean_intensity : ℚ
deriving DecidableEq, Repr

/-- `prop_names` (app.py lines 36-43): the fixed property column names. -/
def prop_names : List String :=
  ["label", "area", "perimeter", "eccentricity", "euler_number", "mean_intensity"]

/-- One entry of the `columns` list handed to `dash_table.DataTable`
(app.py lines 49-59): a display name, a column id, and — for the numeric
columns — the display precision of `Format(precision=...)`. -/
structure ColumnSpec where
  name : String
  id : String
  numericPrecision : Option Nat
deriving DecidableEq, Repr

/-- `columns` (app.py lines 49-59): built by zipping `prop_names` with the
precisions `(None, None, 4, 4, None, 3)`; both `name` and `id` are the
property name. -/
def columns : List ColumnSpec :=
  (prop_names.zip [none, none, some 4, some 4, none, some 3]).map fun p =>
    { name := p.1, id := p.1, numericPrecision := p.2 }

/-- `np.unique(label_array)[np.nonzero(np.unique(label_array))]`
(app.py line 34, and the row set of `regionprops_table`): the sorted
distinct nonzero values of the grid. -/
def np_unique_positive (g : Grid) : List Nat :=
  List.insertionSort (· ≤ ·) ((g.flatten.filter fun v => v != 0).dedup)

/-- `area` of a region: the number of pixels carrying the label
(`skimage.measure.regionprops` area). -/
def region_area (g : Grid) (l : Nat) : Nat := g.flatten.count l

/-- `mean_intensity` of a region: mean of the intensity image over the
region's pixels (`skimage.measure.regionprops` mean_intensity). -/
def region_mean_intensity (g : Grid) (img : Image) (l : Nat) : ℚ :=
  let sel := (g.flatten.zip img.flatten).filter fun p => p.1 == l
  (sel.map fun p => p.2).sum / (sel.length : ℚ)

/-- The geometric measures of `skimage.measure.regionprops` whose numeric
values no callback of the app ever branches on (perimeter, eccentricity,
Euler number). They are kept abstract as parameters rather than
re-implemented; theorems quantify over them. -/
structure Measures where
  perimeter : Grid → Nat → ℚ
  eccentricity : Grid → Nat → ℚ
  euler_number : Grid → Nat → Int

/-- `measure.regionprops_table(label_array, intensity_image=img,
properties=prop_names)` turned into a `DataFrame` (app.py lines 44-47):
one row per positive label value of the label map, in ascending label
order, background `0` excluded. -/
def regionprops_table (m : Measures) (g : Grid) (img : Image) : List RegionRow :=
  (np_unique_positive g).map fun l =>
    { label := l
      area := region_area g l
      perimeter := m.perimeter g l
      eccentricity := m.eccentricity g l
      euler_number := m.euler_number g l
      mean_intensity := region_mean_intensity g img l }

/-- Python truthiness of an `n_clicks` value (`None` or a count). -/
def truthyClicks : Option Nat → Bool
  | none => false
  | some k => k != 0

/-- `toggle_modal` (app.py lines 375-378): negate `is_open` when either
button has been clicked. -/
def toggle_modal (n1 n2 : Option Nat) (is_open : Bool) : Bool :=
  if truthyClicks n1 || truthyClicks n2 then !is_open else is_open

/-- `toggle_navbar_collapse` (app.py lines 387-390): negate `is_open` when
the toggler has been clicked. -/
def toggle_navbar_collapse (n : Option Nat) (is_open : Bool) : Bool :=
  if truthyClicks n then !is_open else is_open

/-! ## The figure model -/

/-- One plotly trace, as added by the source:
* `baseImage`: the single trace of `px.imshow(img, binary_string=True, ...)`;
* `labelOverlay`: the trace of `fig.add_image(...)` whose source is the
  datashader-shaded masked label grid, with its opacity
  (`0.4 if mode is None else 1`);
* `regionScatter`: one `go.Scatter` per row of `data_table`, carrying the
  contour of the row's label (`measure.find_contours(label_array == label,
  0.5)[0]`), `name=label`, and the row whose property values fill the
  `hovertemplate` string;
* `selectionOutline`: the `fig.add_contour(z=mask, ...)` trace appended by
  the selection branch of `highlight_filter`, carrying its mask
  `(label_array == label)`. -/
inductive Trace where
  | baseImage (img : Image)
  | labelOverlay (shaded : List (List (Option Nat))) (opacity : ℚ)
  | regionScatter (contour : List (Nat × Nat)) (label : Nat) (row : RegionRow)
  | selectionOutline (mask : List (List Bool))
deriving DecidableEq, Repr

/-- A plotly figure: its list of traces, in insertion order. In hover
events, `curveNumber` is the index into this list. -/
structure Figure where
  traces : List Trace
deriving DecidableEq, Repr

/-- `label_array == label`: the boolean mask of one label's pixels (the
source casts it to floats `0.0/1.0` for `add_contour`; the values are
exactly zero or one, so booleans model them faithfully). -/
def labelMask (g : Grid) (l : Nat) : List (List Bool) :=
  g.map fun row => row.map fun v => v == l

/-- Whether a boolean mask contains any `true` pixel. -/
def anyTrue (mask : List (List Bool)) : Bool :=
  mask.any fun row => row.any fun b => b

/-- The grid positions of the `true` pixels of a mask, row-major. -/
def truePositions (mask : List (List Bool)) : List (Nat × Nat) :=
  (mask.enum.map fun p =>
    ((p.2.enum.filter fun q => q.2).map fun q => (p.1, q.1))).flatten

/-- `skimage.measure.find_contours(mask, 0.5)` on a label mask, modelled at
the level the source relies on: the result is an empty list exactly when
the mask has no foreground pixel (marching squares finds no `0.5`-level
crossing), and otherwise a non-empty list whose first element traces the
region; the trace is represented by the mask's foreground positions rather
than by sub-pixel contour coordinates. -/
def find_contours (mask : List (List Bool)) : List (List (Nat × Nat)) :=
  if anyTrue mask then [truePositions mask] else []

/-- The datashader-shaded overlay (app.py lines 91-107): each pixel keeps
its label when the label is in `active_labels` and is masked out (`None`,
transparent) otherwise — `np.in1d(label_array.ravel(), active_labels,
invert=True)` masks exactly the pixels whose label is not active — and the
grid is flipped vertically (`np.flipud`). -/
def shaded_overlay (g : Grid) (active_labels : List Nat) : List (List (Option Nat)) :=
  (g.map fun row => row.map fun v =>
    if active_labels.contains v then some v else none).reverse

/-- The loop of app.py lines 114-139: one `go.Scatter` trace per row of
`data_table`, in row order; `measure.find_contours(label_array ==
label, 0.5)[0]` raises `IndexError` when the contour list is empty. -/
def contourTraces (g : Grid) : List RegionRow → Except String (List Trace)
  | [] => .ok []
  | row :: rest =>
    match find_contours (labelMask g row.label) with
    | [] => .error "IndexError"
    | c :: _ =>
      match contourTraces g rest with
      | .error e => .error e
      | .ok ts => .ok (.regionScatter c row.label row :: ts)

/-- `image_with_contour(img, active_labels, data_table, mode, shape)`
(app.py lines 64-145). The figure is the `px.imshow` base trace, the
shaded-overlay image trace with opacity `0.4 if mode is None else 1`, and
one scatter trace per table row. The function reads the module-level
global `label_array`, here the explicit first argument `g`. The `shape`
parameter only feeds the `sh_y, sh_x` bindings of the `try` block, which
the rest of the function never uses. -/
def image_with_contour (g : Grid) (img : Image) (active_labels : List Nat)
    (data_table : List RegionRow) (mode : Option String)
    (shape : Option (Nat × Nat)) : Except String Figure :=
  let _ := shape
  let opacity : ℚ := if mode = none then 2/5 else 1
  match contourTraces g data_table with
  | .error e => .error e
  | .ok scatters =>
    .ok ⟨Trace.baseImage img ::
         Trace.labelOverlay (shaded_overlay g active_labels) opacity :: scatters⟩

/-- The module-level globals of app.py that `image_with_contour` and
`highlight_filter` can see besides their parameters (lines 32-47):
the label map, the startup label list, the startup property table. -/
structure Globals where
  label_array : Grid
  current_labels : List Nat
  table : List RegionRow
deriving DecidableEq

/-- `image_with_contour` as it runs inside the app: a function of the
module globals and of its declared inputs. Only `label_array` among the
globals is read. -/
def image_with_contour_app (G : Globals) (img : Image) (active_labels : List Nat)
    (data_table : List RegionRow) (mode : Option String)
    (shape : Option (Nat × Nat)) : Except String Figure :=
  image_with_contour G.label_array img active_labels data_table mode shape

/-- Project the mask out of a `selectionOutline` trace. -/
def outlineSel : Trace → Option (List (List Bool))
  | .selectionOutline m => some m
  | _ => none

/-- The masks of all `add_contour` selection-outline traces of a figure. -/
def outlineMasks (f : Figure) : List (List (List Bool)) :=
  f.traces.filterMap outlineSel

/-- How many selection-outline traces a figure holds. -/
def countOutlines (f : Figure) : Nat := (outlineMasks f).length

/-! ## The callbacks -/

/-- One entry of the `style_data_conditional` list the hover callback
returns: the filter query `"{label} eq %d" % index` together with the two
fixed style fields. `filter_label` is the number interpolated into the
query, i.e. the table rows whose `label` column equals it are styled. -/
structure StyleCond where
  filter_label : Nat
  backgroundColor : String
  color : String
deriving DecidableEq, Repr

/-- `higlight_row` (app.py lines 311-323), the hover callback. Its input
is `hoverData["points"][0]["curveNumber"]`, the index of the hovered trace
in the figure's trace list; it returns one conditional style targeting the
rows whose `label` column equals that curve number. -/
def higlight_row (curveNumber : Nat) : List StyleCond :=
  [{ filter_label := curveNumber, backgroundColor := "#3D9970", color := "white" }]

/-- `_table.loc[indices, "label"].values` (app.py line 365): the labels of
the rows of `data` selected by the derived virtual indices, in index
order; a missing index raises `KeyError` in pandas. -/
def virtualLabels (data : List RegionRow) : List Nat → Except String (List Nat)
  | [] => .ok []
  | i :: rest =>
    match data[i]? with
    | none => .error "KeyError"
    | some row =>
      match virtualLabels data rest with
      | .error e => .error e
      | .ok ls => .ok (row.label :: ls)

/-- The fall-through branch of `highlight_filter` (app.py lines 365-367):
recompute the filtered label list from the current virtual indices,
rebuild the figure for it, and pass `previous_row` through unchanged. -/
def highlight_filter_rest (g : Grid) (img : Image) (indices : List Nat)
    (data : List RegionRow) (previous_row : Option Nat) :
    Except String (Figure × List Nat × Option Nat) :=
  match virtualLabels data indices with
  | .error e => .error e
  | .ok filtered_labels =>
    match image_with_contour g img filtered_labels data none none with
    | .error e => .error e
    | .ok fig => .ok (fig, filtered_labels, previous_row)

/-- `highlight_filter` (app.py lines 340-367). When a cell is active and
its row differs from the remembered `previous_row` (Python:
`if cell_index and cell_index["row"] != previous_row`), the selected
label is computed as `indices[cell_index["row"]] + 1`, the figure is
rebuilt for the stored `active_labels` and one `add_contour` outline of
that label's mask is appended; the outputs are the figure, the unchanged
`active_labels` and the new remembered row. Otherwise the filter branch
`highlight_filter_rest` runs. `cell_index` is modelled by the `"row"`
field of the active cell (`none` when there is no active cell);
`previous_row` is the hidden div's children (`None` initially). -/
def highlight_filter (g : Grid) (img : Image) (indices : List Nat)
    (cell_index : Option Nat) (data : List RegionRow)
    (active_labels : List Nat) (previous_row : Option Nat) :
    Except String (Figure × List Nat × Option Nat) :=
  match cell_index with
  | some r =>
    if previous_row ≠ some r then
      match indices[r]? with
      | none => .error "IndexError"
      | some i =>
        let label := i + 1
        let mask := labelMask g label
        match image_with_contour g img active_labels data none none with
        | .error e => .error e
        | .ok fig =>
          .ok (⟨fig.traces ++ [Trace.selectionOutline mask]⟩, active_labels, some r)
    else
      highlight_filter_rest g img indices data previous_row
  | none => highlight_filter_rest g img indices data previous_row

/-! ## The app as a state machine -/

/-- The browser-held state the registered callbacks read and write,
together with the module-level globals (`label_array`, `img`) they close
over: the graph figure, the table's conditional styles, the
`cache-label-list` store, the hidden `row` div, and the two visibility
flags. -/
structure AppState where
  label_array : Grid
  img : Image
  figure : Option Figure
  style : List StyleCond
  cache : List Nat
  previous_row : Option Nat
  modal_open : Bool
  navbar_open : Bool

/-- One UI event, carrying the input values Dash hands the corresponding
callback. -/
inductive Event where
  | hover (curveNumber : Nat)
  | tableChange (indices : List Nat) (cell_index : Option Nat) (data : List RegionRow)
  | modalClick (n1 n2 : Option Nat)
  | navbarClick (n : Option Nat)

/-- Dispatch one event to its callback and write the callback's outputs
back into the state, exactly as the four `@app.callback` registrations
wire them (app.py lines 306-390): hover writes only the table styles, the
table callback writes figure, cache and row, the toggles write their flag. A
callback that raises leaves every output unchanged (Dash applies no
updates on an exception). No callback has the label map among its
outputs. -/
def app_step (s : AppState) : Event → AppState
  | .hover cn => { s with style := higlight_row cn }
  | .tableChange indices cell_index data =>
    match highlight_filter s.label_array s.img indices cell_index data
        s.cache s.previous_row with
    | .ok (fig, cache, row) =>
      { s with figure := some fig, cache := cache, previous_row := row }
    | .error _ => s
  | .modalClick n1 n2 => { s with modal_open := toggle_modal n1 n2 s.modal_open }
  | .navbarClick n => { s with navbar_open := toggle_navbar_collapse n s.navbar_open }

/-! ## Projections used to state claims about callback results -/

/-- The trace at index `i` (the hover `curveNumber`) of a rendered figure. -/
def traceAt (r : Except String Figure) (i : Nat) : Option Trace :=
  match r with
  | .ok f => f.traces[i]?
  | .error _ => none

/-- The figure output of a `highlight_filter` run, when it succeeded. -/
def outFig (r : Except String (Figure × List Nat × Option Nat)) : Option Figure :=
  r.toOption.map fun p => p.1

/-- The `cache-label-list` output of a `highlight_filter` run. -/
def outCache (r : Except String (Figure × List Nat × Option Nat)) : Option (List Nat) :=
  r.toOption.map fun p => p.2.1

/-- The hidden-row output of a `highlight_filter` run. -/
def outRow (r : Except String (Figure × List Nat × Option Nat)) : Option (Option Nat) :=
  r.toOption.map fun p => p.2.2

/-! ## A concrete 2×2 instance used for counterexamples and witnesses

The label map `g0 = [[0, 1], [2, 2]]` has background in one corner and two
regions, labelled `1` and `2`; `row1`/`row2` are the corresponding startup
property-table rows (their measure fields are immaterial to every
callback). -/

/-- A concrete label map with two regions. -/
def g0 : Grid := [[0, 1], [2, 2]]

/-- A concrete image of matching shape. -/
def img0 : Image := [[0, 0], [0, 0]]

/-- The startup table row of label `1` of `g0`. -/
def row1 : RegionRow :=
  { label := 1, area := 1, perimeter := 0, eccentricity := 0
    euler_number := 1, mean_intensity := 0 }

/-- The startup table row of label `2` of `g0`. -/
def row2 : RegionRow :=
  { label := 2, area := 2, perimeter := 2, eccentricity := 1
    euler_number := 1, mean_intensity := 0 }

/-! ## Helper lemmas -/

/-- A label's mask has a foreground pixel exactly when the label occurs in
the grid. -/
lemma anyTrue_labelMask (g : Grid) (l : Nat) :
    anyTrue (labelMask g l) = true ↔ l ∈ g.flatten := by
  simp [anyTrue, labelMask, List.any_eq_true, List.mem_flatten]

/-- When every table row's label occurs in the label map, the scatter-trace
loop succeeds and produces no selection outline. -/
lemma contourTraces_ok_of {g : Grid} {data : List RegionRow}
    (h : ∀ row ∈ data, row.label ∈ g.flatten) :
    ∃ ts, contourTraces g data = .ok ts ∧ ts.filterMap outlineSel = [] := by
  induction data with
  | nil => exact ⟨[], rfl, rfl⟩
  | cons row rest ih =>
    obtain ⟨ts, hts, hout⟩ := ih fun r hr => h r (List.mem_cons_of_mem _ hr)
    have hfc : find_contours (labelMask g row.label)
        = [truePositions (labelMask g row.label)] := by
      rw [find_contours, if_pos]
      exact (anyTrue_labelMask g row.label).mpr (h row (List.mem_cons_self row rest))
    exact ⟨Trace.regionScatter (truePositions (labelMask g row.label)) row.label row :: ts,
      by simp [contourTraces, hfc, hts], by simp [outlineSel, hout]⟩

/-- When some table row's label is absent from the label map, the
scatter-trace loop raises `IndexError`. -/
lemma contourTraces_error_of {g : Grid} {data : List RegionRow}
    (h : ∃ row ∈ data, row.label ∉ g.flatten) :
    contourTraces g data = .error "IndexError" := by
  induction data with
  | nil => simp at h
  | cons row rest ih =>
    by_cases hocc : row.label ∈ g.flatten
    · have hfc : find_contours (labelMask g row.label)
          = [truePositions (labelMask g row.label)] := by
        rw [find_contours, if_pos]
        exact (anyTrue_labelMask g row.label).mpr hocc
      obtain ⟨r, hr, hnot⟩ := h
      rcases List.mem_cons.mp hr with rfl | hr
      · exact absurd hocc hnot
      · have := ih ⟨r, hr, hnot⟩
        simp [contourTraces, hfc, this]
    · have hfc : find_contours (labelMask g row.label) = [] := by
        rw [find_contours, if_neg]
        simpa [anyTrue_labelMask g row.label] using hocc
      simp [contourTraces, hfc]

/-- A successful scatter-trace loop never emits a selection outline. -/
lemma contourTraces_no_outline {g : Grid} {data : List RegionRow} {ts : List Trace}
    (h : contourTraces g data = .ok ts) : ts.filterMap outlineSel = [] := by
  induction data generalizing ts with
  | nil =>
    simp only [contourTraces] at h
    cases h
    rfl
  | cons row rest ih =>
    simp only [contourTraces] at h
    rcases hfc : find_contours (labelMask g row.label) with _ | ⟨c, cs⟩ <;> rw [hfc] at h
    · cases h
    · rcases hrest : contourTraces g rest with e | ts' <;> rw [hrest] at h
      · cases h
      · cases h
        simp [outlineSel, ih hrest]

/-- When every table row's label occurs in the label map,
`image_with_contour` succeeds and its figure carries no selection
outline. -/
lemma image_with_contour_ok {g : Grid} {data : List RegionRow}
    (img : Image) (active : List Nat) (mode : Option String) (shape : Option (Nat × Nat))
    (h : ∀ row ∈ data, row.label ∈ g.flatten) :
    ∃ fig, image_with_contour g img active data mode shape = .ok fig
      ∧ outlineMasks fig = [] := by
  obtain ⟨ts, hts, hout⟩ := contourTraces_ok_of h
  refine ⟨⟨Trace.baseImage img ::
    Trace.labelOverlay (shaded_overlay g active) (if mode = none then 2/5 else 1) :: ts⟩,
    ?_, ?_⟩
  · simp [image_with_contour, hts]
  · simp [outlineMasks, outlineSel, hout]

/-- When every derived virtual index is in range, the pandas `loc` lookup
succeeds and each produced label is the label of some row of `data`. -/
lemma virtualLabels_ok {data : List RegionRow} {indices : List Nat}
    (h : ∀ i ∈ indices, i < data.length) :
    ∃ ls, virtualLabels data indices = .ok ls
      ∧ ∀ l ∈ ls, ∃ row ∈ data, row.label = l := by
  induction indices with
  | nil => exact ⟨[], rfl, by simp⟩
  | cons i rest ih =>
    obtain ⟨ls, hls, hmem⟩ := ih fun j hj => h j (List.mem_cons_of_mem _ hj)
    have hi : i < data.length := h i (List.mem_cons_self i rest)
    have hget : data[i]? = some data[i] := List.getElem?_eq_getElem hi
    refine ⟨data[i].label :: ls, by simp [virtualLabels, hget, hls], ?_⟩
    intro l hl
    rcases List.mem_cons.mp hl with rfl | hl
    · exact ⟨data[i], List.getElem_mem hi, rfl⟩
    · exact hmem l hl

/-- The selection branch of `highlight_filter`, in equational form. -/
lemma highlight_filter_selection {g : Grid} {img : Image} {indices : List Nat}
    {r i : Nat} {data : List RegionRow} {active : List Nat} {prev : Option Nat}
    (hprev : prev ≠ some r) (hi : indices[r]? = some i)
    {fig : Figure}
    (hfig : image_with_contour g img active data none none = .ok fig) :
    highlight_filter g img indices (some r) data active prev
      = .ok (⟨fig.traces ++ [Trace.selectionOutline (labelMask g (i + 1))]⟩,
             active, some r) := by
  simp [highlight_filter, hprev, hi, hfig]

/-- When there is no newly selected cell, `highlight_filter` runs its
filter branch. -/
lemma highlight_filter_to_rest {g : Grid} {img : Image} {indices : List Nat}
    {cell_index : Option Nat} {data : List RegionRow} {active : List Nat}
    {prev : Option Nat}
    (h : ∀ r, cell_index = some r → prev = some r) :
    highlight_filter g img indices cell_index data active prev
      = highlight_filter_rest g img indices data prev := by
  cases cell_index with
  | none => rfl
  | some r => simp [highlight_filter, h r rfl]

/-! ## The claims -/

/-- C6: the property table computed at startup has exactly one row for each
positive label value of the label map — its rows, in order, are precisely
the sorted distinct nonzero labels, which are exactly the positive values
occurring in the grid — and the table columns are the six fixed property
names `label, area, perimeter, eccentricity, euler_number,
mean_intensity`. -/
theorem C6_table_rows (m : Measures) (g : Grid) (img : Image) :
    (regionprops_table m g img).map (fun row => row.label) = np_unique_positive g
    ∧ (np_unique_positive g).Nodup
    ∧ (∀ l, l ∈ np_unique_positive g ↔ 0 < l ∧ l ∈ g.flatten)
    ∧ columns.map (fun c => c.id) = prop_names
    ∧ prop_names = ["label", "area", "perimeter", "eccentricity", "euler_number",
        "mean_intensity"] := by
  refine ⟨?_, ?_, ?_, rfl, rfl⟩
  · simp [regionprops_table, List.map_map, Function.comp_def]
  · exact (List.perm_insertionSort _ _).nodup_iff.mpr (List.nodup_dedup _)
  · intro l
    rw [np_unique_positive, (List.perm_insertionSort _ _).mem_iff, List.mem_dedup,
      List.mem_filter]
    simp [Nat.pos_iff_ne_zero, and_comm]

/-- C7: for every boolean visibility state and every positive click count,
applying `toggle_modal` twice (through either button) or
`toggle_navbar_collapse` twice returns the original `is_open` state. -/
theorem C7_toggle_involution (b : Bool) (n : Nat) (h : 0 < n) :
    toggle_modal (some n) none (toggle_modal (some n) none b) = b
    ∧ toggle_modal none (some n) (toggle_modal none (some n) b) = b
    ∧ toggle_navbar_collapse (some n) (toggle_navbar_collapse (some n) b) = b := by
  have hn : (n != 0) = true := by simp [Nat.pos_iff_ne_zero.mp h]
  simp [toggle_modal, toggle_navbar_collapse, truthyClicks, hn]

/-- Witness for C7 at `is_open = true` and one click. -/
theorem C7_toggle_involution_witness :
    toggle_modal (some 1) none (toggle_modal (some 1) none true) = true
    ∧ toggle_modal none (some 1) (toggle_modal none (some 1) true) = true
    ∧ toggle_navbar_collapse (some 1) (toggle_navbar_collapse (some 1) true) = true :=
  C7_toggle_involution true 1 (by decide)

/-- C8: the label map is never regenerated or mutated after startup — every
event dispatched to a callback (hover, table filter/selection, modal
toggle, navbar toggle) leaves the state's label map unchanged. -/
theorem C8_label_map_frame (s : AppState) (e : Event) :
    (app_step s e).label_array = s.label_array := by
  cases e with
  | hover cn => rfl
  | tableChange indices cell_index data =>
    simp only [app_step]
    split <;> rfl
  | modalClick n1 n2 => rfl
  | navbarClick n => rfl

/-- C9: `image_with_contour` is partial — it returns successfully exactly
when every row of `data_table` carries a label that occurs in the label
map, and it raises `IndexError` (the empty result of `find_contours`
indexed with `[0]`) exactly when some row's label has no pixel in the
label map; so under the precondition that every table label occurs in the
label map the error branch is unreachable. -/
theorem C9_contour_partiality (g : Grid) (img : Image) (active : List Nat)
    (data : List RegionRow) (mode : Option String) (shape : Option (Nat × Nat)) :
    ((∃ fig, image_with_contour g img active data mode shape = .ok fig)
        ↔ ∀ row ∈ data, row.label ∈ g.flatten)
    ∧ (image_with_contour g img active data mode shape = .error "IndexError"
        ↔ ∃ row ∈ data, row.label ∉ g.flatten) := by
  constructor
  · constructor
    · rintro ⟨fig, hfig⟩
      by_contra hnot
      push_neg at hnot
      rw [image_with_contour] at hfig
      rw [contourTraces_error_of hnot] at hfig
      cases hfig
    · intro h
      obtain ⟨fig, hfig, _⟩ := image_with_contour_ok img active mode shape h
      exact ⟨fig, hfig⟩
  · constructor
    · intro herr
      by_contra hnot
      push_neg at hnot
      obtain ⟨fig, hfig, _⟩ := image_with_contour_ok img active mode shape hnot
      rw [hfig] at herr
      cases herr
    · intro h
      rw [image_with_contour]
      rw [contourTraces_error_of h]

/-- C10: when `highlight_filter` takes the new-cell-selection branch, the
cached active label set it outputs is the input `active_labels` unchanged
(and the remembered row becomes the selected row, with the figure
produced). -/
theorem C10_selection_keeps_active_set (g : Grid) (img : Image)
    (indices : List Nat) (r : Nat) (data : List RegionRow)
    (active : List Nat) (prev : Option Nat)
    (hprev : prev ≠ some r) (hr : r < indices.length)
    (hocc : ∀ row ∈ data, row.label ∈ g.flatten) :
    outCache (highlight_filter g img indices (some r) data active prev) = some active
    ∧ outRow (highlight_filter g img indices (some r) data active prev)
        = some (some r)
    ∧ (outFig (highlight_filter g img indices (some r) data active prev)).isSome
        = true := by
  obtain ⟨fig, hfig, _⟩ := image_with_contour_ok img active none none hocc
  have hi : indices[r]? = some indices[r] := List.getElem?_eq_getElem hr
  have hsel := highlight_filter_selection hprev hi hfig
  rw [hsel]
  exact ⟨rfl, rfl, rfl⟩

/-- Witness for C10 on the concrete two-region instance. -/
theorem C10_selection_keeps_active_set_witness :
    outCache (highlight_filter g0 img0 [0, 1] (some 0) [row1, row2] [1, 2] none)
        = some [1, 2]
    ∧ outRow (highlight_filter g0 img0 [0, 1] (some 0) [row1, row2] [1, 2] none)
        = some (some 0)
    ∧ (outFig (highlight_filter g0 img0 [0, 1] (some 0) [row1, row2] [1, 2] none)).isSome
        = true :=
  C10_selection_keeps_active_set g0 img0 [0, 1] 0 [row1, row2] [1, 2] none
    (by decide) (by decide) (by decide)

/-- C5: after a filter operation (no newly selected cell), the recomputed
active label set written to the cache store only holds labels that exist
as rows of the startup property table — here any table of which the
current, possibly row-deleted, `data` is a sublist. -/
theorem C5_filtered_labels_subset (g : Grid) (img : Image) (indices : List Nat)
    (cell_index : Option Nat) (data : List RegionRow) (active : List Nat)
    (prev : Option Nat) (startup : List RegionRow)
    (hcell : ∀ r, cell_index = some r → prev = some r)
    (hsub : List.Sublist data startup)
    (hind : ∀ i ∈ indices, i < data.length)
    (hocc : ∀ row ∈ data, row.label ∈ g.flatten) :
    (outFig (highlight_filter g img indices cell_index data active prev)).isSome
        = true
    ∧ outRow (highlight_filter g img indices cell_index data active prev)
        = some prev
    ∧ Option.map (fun cache => cache.all fun l =>
          decide (l ∈ startup.map fun row => row.label))
        (outCache (highlight_filter g img indices cell_index data active prev))
      = some true := by
  obtain ⟨ls, hls, hmem⟩ := virtualLabels_ok hind
  obtain ⟨fig, hfig, _⟩ := image_with_contour_ok img ls none none hocc
  have hrest : highlight_filter_rest g img indices data prev = .ok (fig, ls, prev) := by
    simp [highlight_filter_rest, hls, hfig]
  rw [highlight_filter_to_rest hcell, hrest]
  refine ⟨rfl, rfl, ?_⟩
  show some (ls.all fun l => decide (l ∈ startup.map fun row => row.label)) = some true
  congr 1
  rw [List.all_eq_true]
  intro l hl
  obtain ⟨row, hrow, rfl⟩ := hmem l hl
  exact decide_eq_true (List.mem_map.mpr ⟨row, hsub.subset hrow, rfl⟩)

/-- Witness for C5: filtering the full two-region table down by indices,
with the startup table itself as the source. -/
theorem C5_filtered_labels_subset_witness :
    (outFig (highlight_filter g0 img0 [1] none [row1, row2] [1, 2] none)).isSome
        = true
    ∧ outRow (highlight_filter g0 img0 [1] none [row1, row2] [1, 2] none)
        = some none
    ∧ Option.map (fun cache => cache.all fun l =>
          decide (l ∈ [row1, row2].map fun row => row.label))
        (outCache (highlight_filter g0 img0 [1] none [row1, row2] [1, 2] none))
      = some true :=
  C5_filtered_labels_subset g0 img0 [1] none [row1, row2] [1, 2] none [row1, row2]
    (fun r h => nomatch h) (List.Sublist.refl _) (by decide) (by decide)

/-- C4 counterexample globals: two module states with the same declared
renderer inputs but different label maps. -/
def G1 : Globals := { label_array := [[0, 1]], current_labels := [1], table := [] }

/-- A second globals value differing from `G1` only in the label map. -/
def G2 : Globals := { label_array := [[1, 1]], current_labels := [1], table := [] }

/-- The shaded-overlay data of the first `labelOverlay` trace of a
rendered figure (a projection free of opacity values, used to compare
figures concretely). -/
def overlayData (r : Except String Figure) : Option (List (List (Option Nat))) :=
  match r with
  | .ok f =>
    (f.traces.filterMap fun t =>
      match t with
      | .labelOverlay s _ => some s
      | _ => none).head?
  | .error _ => none

/-- C4 counterexample: `image_with_contour` is not a function of its
declared inputs alone — with identical base image, active label set,
table view, mode and shape, two different module-level label maps yield
two different figures (the shaded overlay follows the label map). -/
theorem C4_counterexample :
    overlayData (image_with_contour_app G1 img0 [1] [] none none)
      = some [[none, some 1]]
    ∧ overlayData (image_with_contour_app G2 img0 [1] [] none none)
      = some [[some 1, some 1]]
    ∧ image_with_contour_app G1 img0 [1] [] none none
      ≠ image_with_contour_app G2 img0 [1] [] none none := by
  refine ⟨by decide, by decide, fun h => ?_⟩
  have hod := congrArg overlayData h
  rw [show overlayData (image_with_contour_app G1 img0 [1] [] none none)
      = some [[none, some 1]] from by decide] at hod
  rw [show overlayData (image_with_contour_app G2 img0 [1] [] none none)
      = some [[some 1, some 1]] from by decide] at hod
  exact absurd hod (by decide)

/-- C4 amended: `image_with_contour` is a pure function of its declared
inputs together with the module-level label map — two calls under globals
agreeing on `label_array` (whatever their other module state) and with
equal declared inputs return equal figures. -/
theorem C4_pure_given_label_map (G G' : Globals)
    (h : G.label_array = G'.label_array)
    (img : Image) (active : List Nat) (data : List RegionRow)
    (mode : Option String) (shape : Option (Nat × Nat)) :
    image_with_contour_app G img active data mode shape
      = image_with_contour_app G' img active data mode shape := by
  rw [image_with_contour_app, image_with_contour_app, h]

/-- Witness for C4: two globals sharing the label map but differing in the
other module values give the same figure. -/
theorem C4_pure_given_label_map_witness :
    image_with_contour_app
        { label_array := g0, current_labels := [1, 2], table := [row1, row2] }
        img0 [1, 2] [row1, row2] none none
      = image_with_contour_app
        { label_array := g0, current_labels := [], table := [] }
        img0 [1, 2] [row1, row2] none none :=
  C4_pure_given_label_map
    { label_array := g0, current_labels := [1, 2], table := [row1, row2] }
    { label_array := g0, current_labels := [], table := [] }
    rfl img0 [1, 2] [row1, row2] none none

/-- C1 (the code at a failing input): in the startup figure of the
two-region instance, the scatter trace of the region of the first table
row (label `1`) sits at `curveNumber = 2` — after the `px.imshow` base
trace and the `add_image` overlay trace — yet `higlight_row 2` returns a
conditional style whose filter query targets the rows whose `label`
column is `2`, i.e. the second row, not the hovered one; hovering the
last region's trace (`curveNumber = 3`) targets label `3`, which no row
carries. -/
theorem C1_hover_mislabels_row :
    traceAt (image_with_contour g0 img0 [1, 2] [row1, row2] none none) 2
      = some (Trace.regionScatter [(0, 1)] 1 row1)
    ∧ higlight_row 2
      = [{ filter_label := 2, backgroundColor := "#3D9970", color := "white" }]
    ∧ traceAt (image_with_contour g0 img0 [1, 2] [row1, row2] none none) 3
      = some (Trace.regionScatter [(1, 0), (1, 1)] 2 row2)
    ∧ higlight_row 3
      = [{ filter_label := 3, backgroundColor := "#3D9970", color := "white" }]
    ∧ [row1, row2].map (fun row => row.label) = [1, 2] := by decide

/-- C2 counterexample: firing `highlight_filter` twice with the same
active cell (the second call receiving the first call's cache and row
outputs) does not reproduce the single-call figure — the first call's
figure carries the selection outline, the second call falls into the
filter branch and returns a figure without it. -/
theorem C2_counterexample :
    outCache (highlight_filter g0 img0 [0, 1] (some 0) [row1, row2] [1, 2] none)
        = some [1, 2]
    ∧ outRow (highlight_filter g0 img0 [0, 1] (some 0) [row1, row2] [1, 2] none)
        = some (some 0)
    ∧ Option.map countOutlines
        (outFig (highlight_filter g0 img0 [0, 1] (some 0) [row1, row2] [1, 2] none))
      = some 1
    ∧ Option.map countOutlines
        (outFig (highlight_filter g0 img0 [0, 1] (some 0) [row1, row2] [1, 2] (some 0)))
      = some 0
    ∧ outFig (highlight_filter g0 img0 [0, 1] (some 0) [row1, row2] [1, 2] (some 0))
      ≠ outFig (highlight_filter g0 img0 [0, 1] (some 0) [row1, row2] [1, 2] none) := by
  refine ⟨by decide, by decide, by decide, by decide, fun h => ?_⟩
  have hc := congrArg (Option.map countOutlines) h
  rw [show Option.map countOutlines
      (outFig (highlight_filter g0 img0 [0, 1] (some 0) [row1, row2] [1, 2] (some 0)))
      = some 0 from by decide] at hc
  rw [show Option.map countOutlines
      (outFig (highlight_filter g0 img0 [0, 1] (some 0) [row1, row2] [1, 2] none))
      = some 1 from by decide] at hc
  exact absurd hc (by decide)

/-- C2 amended: reselecting the same row adds no duplicate outline — the
first invocation's figure carries exactly one selection outline, and the
second invocation with the same active cell (fed the first call's cache
and remembered-row outputs) returns a figure with no selection outline at
all, hence never more outlines than a single invocation produces. -/
theorem C2_reselect_no_duplicate_outline (g : Grid) (img : Image)
    (indices : List Nat) (r : Nat) (data : List RegionRow)
    (active : List Nat) (prev : Option Nat)
    (hprev : prev ≠ some r) (hr : r < indices.length)
    (hind : ∀ i ∈ indices, i < data.length)
    (hocc : ∀ row ∈ data, row.label ∈ g.flatten) :
    outCache (highlight_filter g img indices (some r) data active prev) = some active
    ∧ outRow (highlight_filter g img indices (some r) data active prev)
        = some (some r)
    ∧ Option.map countOutlines
        (outFig (highlight_filter g img indices (some r) data active prev))
      = some 1
    ∧ Option.map countOutlines
        (outFig (highlight_filter g img indices (some r) data active (some r)))
      = some 0 := by
  obtain ⟨fig, hfig, hout⟩ := image_with_contour_ok img active none none hocc
  have hi : indices[r]? = some indices[r] := List.getElem?_eq_getElem hr
  have hsel := highlight_filter_selection hprev hi hfig
  obtain ⟨ls, hls, _⟩ := virtualLabels_ok hind
  obtain ⟨fig2, hfig2, hout2⟩ := image_with_contour_ok img ls none none hocc
  have hrest : highlight_filter_rest g img indices data (some r)
      = .ok (fig2, ls, some r) := by
    simp [highlight_filter_rest, hls, hfig2]
  have hsecond : highlight_filter g img indices (some r) data active (some r)
      = .ok (fig2, ls, some r) := by
    rw [highlight_filter_to_rest (fun r' h => h ▸ rfl), hrest]
  rw [hsel, hsecond]
  have h1 : List.filterMap outlineSel fig.traces = [] := hout
  have h2 : List.filterMap outlineSel fig2.traces = [] := hout2
  refine ⟨rfl, rfl, ?_, ?_⟩
  · show some (countOutlines
      ⟨fig.traces ++ [Trace.selectionOutline (labelMask g (indices[r] + 1))]⟩) = some 1
    simp [countOutlines, outlineMasks, List.filterMap_append, h1, outlineSel]
  · show some (countOutlines fig2) = some 0
    simp [countOutlines, outlineMasks, h2]

/-- Witness for C2 on the concrete two-region instance. -/
theorem C2_reselect_no_duplicate_outline_witness :
    outCache (highlight_filter g0 img0 [0, 1] (some 0) [row1, row2] [2, 1] none)
        = some [2, 1]
    ∧ outRow (highlight_filter g0 img0 [0, 1] (some 0) [row1, row2] [2, 1] none)
        = some (some 0)
    ∧ Option.map countOutlines
        (outFig (highlight_filter g0 img0 [0, 1] (some 0) [row1, row2] [2, 1] none))
      = some 1
    ∧ Option.map countOutlines
        (outFig (highlight_filter g0 img0 [0, 1] (some 0) [row1, row2] [2, 1] (some 0)))
      = some 0 :=
  C2_reselect_no_duplicate_outline g0 img0 [0, 1] 0 [row1, row2] [2, 1] none
    (by decide) (by decide) (by decide) (by decide)

/-- C3 counterexample: after the first startup row is deleted (`data`
holds only the label-`2` row), selecting the displayed first cell makes
`highlight_filter` outline `indices[0] + 1 = 1` — the outline traces the
mask of label `1`, not the mask of the selected row's label `2`. -/
theorem C3_counterexample :
    Option.map outlineMasks
        (outFig (highlight_filter g0 img0 [0] (some 0) [row2] [2] none))
      = some [labelMask g0 1]
    ∧ row2.label = 2
    ∧ Option.map outlineMasks
        (outFig (highlight_filter g0 img0 [0] (some 0) [row2] [2] none))
      ≠ some [labelMask g0 row2.label] := by decide

/-- C3 amended: on a newly selected cell, the returned figure is the
no-selection figure plus exactly one high-contrast outline, and the
outlined label is `indices[cell_row] + 1`; when the table data still
carries label `j + 1` in row `j` (no rows deleted), that is exactly the
label of the selected row of the current table view. -/
theorem C3_selection_outline (g : Grid) (img : Image) (indices : List Nat)
    (r i : Nat) (data : List RegionRow) (active : List Nat) (prev : Option Nat)
    (row : RegionRow)
    (hprev : prev ≠ some r) (hi : indices[r]? = some i)
    (hocc : ∀ row ∈ data, row.label ∈ g.flatten)
    (hrow : data[i]? = some row) (hlab : row.label = i + 1) :
    Option.map Figure.traces
        (outFig (highlight_filter g img indices (some r) data active prev))
      = Option.map
          (fun f => f.traces ++ [Trace.selectionOutline (labelMask g row.label)])
          (image_with_contour g img active data none none).toOption
    ∧ Option.map countOutlines
        (image_with_contour g img active data none none).toOption = some 0
    ∧ outCache (highlight_filter g img indices (some r) data active prev)
        = some active := by
  obtain ⟨fig, hfig, hout⟩ := image_with_contour_ok img active none none hocc
  have hsel := highlight_filter_selection hprev hi hfig
  rw [hsel, hfig, hlab]
  exact ⟨rfl, by simp [countOutlines, hout]; exact ⟨fig, rfl, hout⟩, rfl⟩

/-- Witness for C3: the undeleted two-region table, first view row
selected. -/
theorem C3_selection_outline_witness :
    Option.map Figure.traces
        (outFig (highlight_filter g0 img0 [0, 1] (some 0) [row1, row2] [1, 2] none))
      = Option.map
          (fun f => f.traces ++ [Trace.selectionOutline (labelMask g0 row1.label)])
          (image_with_contour g0 img0 [1, 2] [row1, row2] none none).toOption
    ∧ Option.map countOutlines
        (image_with_contour g0 img0 [1, 2] [row1, row2] none none).toOption = some 0
    ∧ outCache (highlight_filter g0 img0 [0, 1] (some 0) [row1, row2] [1, 2] none)
        = some [1, 2] :=
  C3_selection_outline g0 img0 [0, 1] 0 0 [row1, row2] [1, 2] none row1
    (by decide) (by decide) (by decide) (by decide) (by decide)

end DashLabelProps
